import Mathlib

/-!
Shallow embedding of `python3/vimspector/utils.py` (vimspector's editor-state
helper module) and proofs about it.

Modelling conventions:
- A Python block that may raise is a function `σ → Except ε Unit × σ`: it
  returns `.ok ()` on normal completion or `.error e` when it raises, and in
  both cases the state it leaves behind (Python mutations persist when an
  exception propagates).
- A `contextlib.contextmanager` becomes a higher-order function taking such a
  body; its `try/finally` (or `try/except`) structure is translated literally.
- Vim state is restricted to the slice each helper touches (option tables,
  cursor, window/buffer assignment, input-mode bookkeeping).
- `os.path` calls are abstracted into a `FileSystem` record of the three
  operations `PathToConfigFile` uses.
-/

namespace Vimspector

/-- A value a Vim option can hold (boolean, number or string). -/
inductive VimVal where
  | bool (b : Bool)
  | num (n : Int)
  | str (s : String)
deriving DecidableEq

/-- Assignment `vim.options[opt] = v` on the global option table. -/
def setOption (o : String → VimVal) (opt : String) (v : VimVal) : String → VimVal :=
  fun k => if k = opt then v else o k

/-- Shallow embedding of `TemporaryVimOption` (utils.py): save
`old_value = vim.options[opt]`, set `vim.options[opt] = value`, run the body,
and in the `finally:` block set `vim.options[opt] = old_value`.  The restore
runs on both exit paths and the body's own outcome (normal or raised) is
returned unchanged. -/
def TemporaryVimOption {ε : Type} (opt : String) (value : VimVal)
    (body : (String → VimVal) → Except ε Unit × (String → VimVal))
    (s : String → VimVal) : Except ε Unit × (String → VimVal) :=
  let old := s opt
  let r := body (setOption s opt value)
  (r.1, setOption r.2 opt old)

/-- A Vim buffer as `ModifiableScratchBuffer` sees it: its option table. -/
structure Buffer where
  options : String → VimVal

/-- Assignment `buf.options[opt] = v`. -/
def setBufOption (b : Buffer) (opt : String) (v : VimVal) : Buffer :=
  { b with options := fun k => if k = opt then v else b.options k }

/-- Shallow embedding of `ModifiableScratchBuffer` (utils.py): set
`modifiable = True` and `readonly = False`, run the body, and in the
`finally:` block set `modifiable = False` and `readonly = True`. -/
def ModifiableScratchBuffer {ε : Type} (body : Buffer → Except ε Unit × Buffer)
    (buf : Buffer) : Except ε Unit × Buffer :=
  let b1 := setBufOption (setBufOption buf "modifiable" (.bool true))
    "readonly" (.bool false)
  let r := body b1
  (r.1, setBufOption (setBufOption r.2 "modifiable" (.bool false))
    "readonly" (.bool true))

/-- The slice of Vim state `RestoreCursorPosition` touches: the active
window's cursor (1-based line, then column) and the active buffer's line
count (`len(vim.current.buffer)`). -/
structure CursorState where
  cursorLine : Nat
  cursorCol : Nat
  bufLines : Nat
deriving DecidableEq

/-- Shallow embedding of `RestoreCursorPosition` (utils.py): record
`current_pos = vim.current.window.cursor`, run the body, and in the
`finally:` block set the cursor to
`(min(current_pos[0], len(vim.current.buffer)), current_pos[1])`. -/
def RestoreCursorPosition {ε : Type} (body : CursorState → Except ε Unit × CursorState)
    (s : CursorState) : Except ε Unit × CursorState :=
  let pos := (s.cursorLine, s.cursorCol)
  let r := body s
  (r.1, { r.2 with cursorLine := min pos.1 r.2.bufLines, cursorCol := pos.2 })

/-- The slice of Vim state the window/buffer context managers touch: which
window is current (windows are identified by id) and which buffer each window
displays. -/
structure WinState where
  currentWindow : Nat
  winBuffer : Nat → Nat

/-- Assignment `vim.current.buffer = b`: replace the buffer displayed in the
currently active window. -/
def setCurrentBuffer (s : WinState) (b : Nat) : WinState :=
  { s with winBuffer := fun w => if w = s.currentWindow then b else s.winBuffer w }

/-- Shallow embedding of `RestorCurrentWindow` (utils.py): record
`old_window = vim.current.window`, run the body, and in the `finally:` block
set `vim.current.window = old_window`. -/
def RestorCurrentWindow {ε : Type} (body : WinState → Except ε Unit × WinState)
    (s : WinState) : Except ε Unit × WinState :=
  let oldWindow := s.currentWindow
  let r := body s
  (r.1, { r.2 with currentWindow := oldWindow })

/-- Shallow embedding of `RestoreCurrentBuffer` (utils.py): record
`old_buffer = window.buffer`, run the body, and in the `finally:` block run,
inside `RestorCurrentWindow()`, the assignments `vim.current.window = window`
then `vim.current.buffer = old_buffer`. -/
def RestoreCurrentBuffer {ε : Type} (window : Nat)
    (body : WinState → Except ε Unit × WinState) (s : WinState) :
    Except ε Unit × WinState :=
  let oldBuffer := s.winBuffer window
  let r := body s
  let fin := RestorCurrentWindow (ε := ε)
    (fun t => (.ok (), setCurrentBuffer { t with currentWindow := window } oldBuffer))
    r.2
  (r.1, fin.2)

/-- The host's input-mode bookkeeping: how many times `inputsave()` and
`inputrestore()` have been evaluated. -/
structure InputState where
  saves : Nat
  restores : Nat
deriving DecidableEq

/-- Shallow embedding of `InputSave` (utils.py): evaluate `inputsave()`, run
the body, and evaluate `inputrestore()` only inside a bare `except:` handler —
the source has no `finally:`.  Under `contextlib.contextmanager`, a generator
that catches the exception thrown in at the `yield` and then returns normally
suppresses that exception, so on the raising path the body's error is
swallowed, and on the normal path no `inputrestore()` is evaluated at all. -/
def InputSave {ε : Type} (body : InputState → Except ε Unit × InputState)
    (s : InputState) : Except ε Unit × InputState :=
  let r := body { s with saves := s.saves + 1 }
  match r.1 with
  | .ok _ => (.ok (), r.2)
  | .error _ => (.ok (), { r.2 with restores := r.2.restores + 1 })

/-- What the user does at the `inputlist()` prompt: type a number, or
interrupt with CTRL-C (raising `KeyboardInterrupt`). -/
inductive UserInput where
  | entered (n : Int)
  | interrupt

/-- The list passed to `inputlist()` by `SelectFromList` (utils.py): the
prompt followed by one numbered line per option. -/
def displayOptions (prompt : String) (options : List String) : List String :=
  prompt :: (options.mapIdx fun i v => toString (i + 1) ++ ": " ++ v)

/-- Shallow embedding of the selection logic of `SelectFromList` (utils.py):
`selection = int(vim.eval('inputlist(...)')) - 1`; if `selection < 0` or
`selection >= len(options)` return `None`, else return `options[selection]`;
a `KeyboardInterrupt` during the prompt is caught and returns `None`. -/
def SelectFromList (options : List String) (user : UserInput) : Option String :=
  match user with
  | .interrupt => none
  | .entered n =>
    let selection := n - 1
    if selection < 0 ∨ selection ≥ options.length then none
    else options.get? selection.toNat

/-- The three `os` / `os.path` operations `PathToConfigFile` calls, abstracted
over the actual filesystem: `os.path.dirname`, `os.path.join` and
`os.path.exists`. -/
structure FileSystem where
  dirname : String → String
  join : String → String → String
  pathExists : String → Bool

/-- Shallow embedding of `PathToConfigFile` (utils.py), with the starting
directory (`os.getcwd()`) passed in explicitly and the unbounded
`while True:` loop driven by fuel: `none` means the fuel ran out before the
loop returned, `some r` means the loop returned `r` — `some candidate` for
`return candidate` when `os.path.exists(candidate)`, `none` for `return None`
when `parent == p`. -/
def PathToConfigFile (fs : FileSystem) (fileName : String) :
    Nat → String → Option (Option String)
  | 0, _ => none
  | fuel + 1, p =>
    let candidate := fs.join p fileName
    if fs.pathExists candidate then some (some candidate)
    else
      let parent := fs.dirname p
      if parent = p then some none
      else PathToConfigFile fs fileName fuel parent

/-- The chain of directories the upward walk visits starting at `p`:
`p`, `dirname p`, …, `n` applications of `dirname` (so `n + 1` entries). -/
def ancestorDirs (fs : FileSystem) : Nat → String → List String
  | 0, p => [p]
  | n + 1, p => p :: ancestorDirs fs n (fs.dirname p)

/-- The spec's description of the lookup, stated directly: among the chain of
ancestor directories of `cwd` (nearest first), find the first one in which
`fileName` exists and return the joined path, or report not-found. -/
def FindConfigFileSpec (fs : FileSystem) (fileName : String) (n : Nat)
    (cwd : String) : Option String :=
  ((ancestorDirs fs n cwd).find? fun d => fs.pathExists (fs.join d fileName)).map
    fun d => fs.join d fileName

/-- A small concrete filesystem for evaluating the lookup theorems: the
directory tree is `/`, `/a`, `/a/b`, and exactly the file `/a/conf` exists. -/
def demoFS : FileSystem where
  dirname p := if p = "/a/b" then "/a" else "/"
  join p f := if p = "/" then p ++ f else p ++ "/" ++ f
  pathExists c := c = "/a/conf"

/-- Shallow embedding of `Escape` (utils.py): `msg.replace( "'", "''" )`. The
needle is the single character `'`, so the replacement rewrites the text
character by character, turning each single quote into two. -/
def Escape (msg : String) : String :=
  String.mk (msg.data.flatMap fun c => if c = '\'' then ['\'', '\''] else [c])

/-- Shallow embedding of `UserMessage` (utils.py) as the list of Vim commands
it issues, in order: `redraw`, then for each newline-separated line of `msg`
one `echom` (when `persist`) or `echo` (otherwise) command whose argument is
the escaped line in single quotes. -/
def UserMessage (msg : String) (persist : Bool) : List String :=
  "redraw" :: ((msg.splitOn "\n").map fun line =>
    (if persist then "echom" else "echo") ++ " '" ++ Escape line ++ "'")

/-- A `logging.Logger` as `SetUpLogging` sees it: its level and the list of
attached handlers.  Handlers are identified by id; the module-level
`_log_handler` is the single shared handler `logHandler`. -/
structure Logger where
  level : Nat
  handlers : List Nat
deriving DecidableEq

/-- The identity of the module-level shared `_log_handler`. -/
def logHandler : Nat := 0

/-- `logging.DEBUG`. -/
def DEBUG : Nat := 10

/-- Shallow embedding of `SetUpLogging` (utils.py): set the logger's level to
`DEBUG`, and attach `_log_handler` only if it is not already among
`logger.handlers`. -/
def SetUpLogging (l : Logger) : Logger :=
  let l1 : Logger := { l with level := DEBUG }
  if logHandler ∈ l1.handlers then l1
  else { l1 with handlers := l1.handlers ++ [logHandler] }

/-- C1: `TemporaryVimOption` runs the body with `opt` set to `value`; after
the scope, the pre-call value of `opt` is restored whether the body completed
normally or raised; and the body's own outcome is returned unchanged, so an
error from the body propagates rather than being swallowed. -/
theorem temporaryVimOption_restores_and_propagates {ε : Type}
    (opt : String) (value : VimVal)
    (body : (String → VimVal) → Except ε Unit × (String → VimVal))
    (s : String → VimVal) :
    setOption s opt value opt = value ∧
    (TemporaryVimOption opt value body s).2 opt = s opt ∧
    (TemporaryVimOption opt value body s).1 = (body (setOption s opt value)).1 := by
  refine ⟨by simp [setOption], ?_, rfl⟩
  simp [TemporaryVimOption, setOption]

/-- C2: `ModifiableScratchBuffer` runs the body on the buffer with
`modifiable = true` and `readonly = false`, and after the scope — with the
body's outcome, normal or raised, returned unchanged — the buffer is left
with `modifiable = false` and `readonly = true`. -/
theorem modifiableScratchBuffer_restores {ε : Type}
    (body : Buffer → Except ε Unit × Buffer) (buf : Buffer) :
    (setBufOption (setBufOption buf "modifiable" (.bool true)) "readonly"
        (.bool false)).options "modifiable" = .bool true ∧
    (setBufOption (setBufOption buf "modifiable" (.bool true)) "readonly"
        (.bool false)).options "readonly" = .bool false ∧
    (ModifiableScratchBuffer body buf).2.options "modifiable" = .bool false ∧
    (ModifiableScratchBuffer body buf).2.options "readonly" = .bool true ∧
    (ModifiableScratchBuffer body buf).1 =
      (body (setBufOption (setBufOption buf "modifiable" (.bool true)) "readonly"
        (.bool false))).1 := by
  refine ⟨?_, ?_, ?_, ?_, rfl⟩ <;>
    simp [ModifiableScratchBuffer, setBufOption]

/-- C5: `RestoreCursorPosition` restores, whatever the body's outcome, the
cursor line to `min` of the recorded line and the buffer's line count after
the body ran, restores the recorded column, and returns the body's outcome
unchanged. -/
theorem restoreCursorPosition_clamps {ε : Type}
    (body : CursorState → Except ε Unit × CursorState) (s : CursorState) :
    (RestoreCursorPosition body s).2.cursorLine = min s.cursorLine (body s).2.bufLines ∧
    (RestoreCursorPosition body s).2.cursorCol = s.cursorCol ∧
    (RestoreCursorPosition body s).2.bufLines = (body s).2.bufLines ∧
    (RestoreCursorPosition body s).1 = (body s).1 :=
  ⟨rfl, rfl, rfl, rfl⟩

/-- C9: after `RestoreCurrentBuffer window body`, the active window is the one
that was active when the body finished (the temporary re-activation of
`window` is itself undone), `window` shows the buffer it showed before the
scope, every other window keeps the buffer the body left it with, and the
body's outcome is returned unchanged. -/
theorem restoreCurrentBuffer_frame {ε : Type} (window : Nat)
    (body : WinState → Except ε Unit × WinState) (s : WinState) :
    (RestoreCurrentBuffer window body s).2.currentWindow = (body s).2.currentWindow ∧
    (RestoreCurrentBuffer window body s).2.winBuffer =
      (fun w => if w = window then s.winBuffer window else (body s).2.winBuffer w) ∧
    (RestoreCurrentBuffer window body s).1 = (body s).1 := by
  refine ⟨rfl, ?_, rfl⟩
  funext w
  simp [RestoreCurrentBuffer, RestorCurrentWindow, setCurrentBuffer]

/-- C3 (the code's actual behaviour at the failing input): around a body that
completes normally, `InputSave` evaluates `inputsave()` once and never
evaluates `inputrestore()` — from a balanced state the scope ends with one
unmatched save; and around a body that raises, it does restore but swallows
the body's error. -/
theorem inputSave_restore_asymmetry :
    (InputSave (ε := Unit) (fun t => (.ok (), t)) ⟨0, 0⟩).2 = ⟨1, 0⟩ ∧
    InputSave (ε := Unit) (fun t => (.error (), t)) ⟨0, 0⟩ = (.ok (), ⟨1, 1⟩) :=
  ⟨rfl, rfl⟩

/-- C4: `SelectFromList` returns the `(i-1)`-th option — an actual selection —
for a 1-based index `i` within `[1, len(options)]`, and the no-selection
sentinel `none` for index `0`, for an index above `len(options)`, and for a
keyboard interrupt. -/
theorem selectFromList_choice (options : List String) (i : Int) :
    (1 ≤ i → i ≤ options.length →
      SelectFromList options (.entered i) = options.get? (i - 1).toNat ∧
      (options.get? (i - 1).toNat).isSome = true) ∧
    SelectFromList options (.entered 0) = none ∧
    ((options.length : Int) < i → SelectFromList options (.entered i) = none) ∧
    SelectFromList options .interrupt = none := by
  refine ⟨?_, ?_, ?_, rfl⟩
  · intro h1 h2
    have hcond : ¬ (i - 1 < 0 ∨ i - 1 ≥ (options.length : Int)) := by omega
    have hlt : (i - 1).toNat < options.length := by omega
    refine ⟨?_, ?_⟩
    · simp only [SelectFromList, if_neg hcond]
    · rw [List.get?_eq_get hlt]; rfl
  · norm_num [SelectFromList]
  · intro hgt
    have hcond : i - 1 < 0 ∨ i - 1 ≥ (options.length : Int) := by omega
    simp only [SelectFromList, if_pos hcond]

/-- Witness for C4 at the spec's example: options `[A, B, C]` with user
inputs 2, 0, 4 and an interrupt. -/
theorem selectFromList_choice_witness :
    SelectFromList ["A", "B", "C"] (.entered 2) = some "B" ∧
    SelectFromList ["A", "B", "C"] (.entered 0) = none ∧
    SelectFromList ["A", "B", "C"] (.entered 4) = none ∧
    SelectFromList ["A", "B", "C"] .interrupt = none := by
  have h2 := selectFromList_choice ["A", "B", "C"] 2
  have h4 := selectFromList_choice ["A", "B", "C"] 4
  refine ⟨?_, h2.2.1, h4.2.2.1 (by norm_num), h2.2.2.2⟩
  exact ((h2.1 (by norm_num) (by norm_num)).1).trans (by decide)

/-- C8: `SetUpLogging` is idempotent, and one call leaves the shared handler
attached `max` of its previous multiplicity and 1 times — so a logger never
acquires a second copy of the shared handler from repeated calls. -/
theorem setUpLogging_idempotent (l : Logger) :
    SetUpLogging (SetUpLogging l) = SetUpLogging l ∧
    (SetUpLogging l).handlers.count logHandler =
      max (l.handlers.count logHandler) 1 := by
  by_cases h : logHandler ∈ l.handlers
  · have hc : 0 < l.handlers.count logHandler := List.count_pos_iff.mpr h
    constructor
    · simp [SetUpLogging, h]
    · rw [Nat.max_eq_left hc]
      simp [SetUpLogging, h]
  · have hc : l.handlers.count logHandler = 0 := by
      simpa using List.count_eq_zero.mpr h
    constructor
    · simp [SetUpLogging, h]
    · simp [SetUpLogging, h, hc]

/-- A directory that is its own parent heads an ancestor chain made only of
itself. -/
theorem ancestorDirs_of_fixed (fs : FileSystem) (p : String)
    (hp : fs.dirname p = p) : ∀ n, ancestorDirs fs n p = List.replicate (n + 1) p := by
  intro n
  induction n with
  | zero => rfl
  | succ n ih => simp [ancestorDirs, hp, ih, List.replicate_succ]

/-- Shared helper: with enough fuel to reach the filesystem root (a fixed
point of `dirname`), the loop of `PathToConfigFile` returns, and its result
is exactly the nearest-ancestor search described by `FindConfigFileSpec`. -/
theorem pathToConfigFile_eq_spec (fs : FileSystem) (fileName : String) :
    ∀ (n : Nat) (cwd : String),
      fs.dirname (fs.dirname^[n] cwd) = fs.dirname^[n] cwd →
      PathToConfigFile fs fileName (n + 1) cwd =
        some (FindConfigFileSpec fs fileName n cwd) := by
  intro n
  induction n with
  | zero =>
    intro cwd hroot
    simp only [Function.iterate_zero, id] at hroot
    by_cases hex : fs.pathExists (fs.join cwd fileName) = true
    · simp [PathToConfigFile, FindConfigFileSpec, ancestorDirs, hex]
    · simp [PathToConfigFile, FindConfigFileSpec, ancestorDirs, hex, hroot]
  | succ n ih =>
    intro cwd hroot
    by_cases hex : fs.pathExists (fs.join cwd fileName) = true
    · simp [PathToConfigFile, FindConfigFileSpec, ancestorDirs, hex]
    · by_cases hfix : fs.dirname cwd = cwd
      · have hnone : FindConfigFileSpec fs fileName (n + 1) cwd = none := by
          unfold FindConfigFileSpec
          rw [ancestorDirs_of_fixed fs cwd hfix (n + 1)]
          rw [List.find?_eq_none.mpr ?_]
          · rfl
          · intro x hx
            rw [List.eq_of_mem_replicate hx]
            simpa using hex
        rw [hnone]
        simp [PathToConfigFile, hex, hfix]
      · have hroot' : fs.dirname (fs.dirname^[n] (fs.dirname cwd)) =
            fs.dirname^[n] (fs.dirname cwd) := by
          rw [← Function.iterate_succ_apply]
          exact hroot
        have hspec : FindConfigFileSpec fs fileName (n + 1) cwd =
            FindConfigFileSpec fs fileName n (fs.dirname cwd) := by
          unfold FindConfigFileSpec
          simp [ancestorDirs, List.find?_cons_of_neg, hex]
        rw [hspec]
        rw [← ih (fs.dirname cwd) hroot']
        simp [PathToConfigFile, hex, hfix]

/-- C6: starting from any working directory, once `n` parent steps reach the
filesystem root (`dirname`'s fixed point), `PathToConfigFile` returns —
never an exception, modelled by the loop producing an answer — and the
answer is the joined path in the nearest ancestor (the working directory
included) where the file exists, or the not-found sentinel `none` when no
ancestor up to the root has it. -/
theorem pathToConfigFile_nearest_ancestor (fs : FileSystem) (fileName : String)
    (n : Nat) (cwd : String)
    (hroot : fs.dirname (fs.dirname^[n] cwd) = fs.dirname^[n] cwd) :
    PathToConfigFile fs fileName (n + 1) cwd =
      some (FindConfigFileSpec fs fileName n cwd) :=
  pathToConfigFile_eq_spec fs fileName n cwd hroot

/-- Witness for C6 on the concrete demo filesystem: from `/a/b`, with the
target only present in `/a`, the walk returns `/a/conf`. -/
theorem pathToConfigFile_nearest_ancestor_witness :
    demoFS.dirname (demoFS.dirname^[2] "/a/b") = demoFS.dirname^[2] "/a/b" ∧
    PathToConfigFile demoFS "conf" 3 "/a/b" = some (some "/a/conf") :=
  ⟨by decide,
    (pathToConfigFile_nearest_ancestor demoFS "conf" 2 "/a/b" (by decide)).trans
      (by decide)⟩

/-- C10: the upward walk terminates — under the precondition that iterating
`dirname` from the working directory reaches a fixed point in `n` steps, fuel
`n + 1` is enough for the loop to produce an answer (a found path or the
not-found sentinel) instead of running out. -/
theorem pathToConfigFile_terminates (fs : FileSystem) (fileName : String)
    (n : Nat) (cwd : String)
    (hroot : fs.dirname (fs.dirname^[n] cwd) = fs.dirname^[n] cwd) :
    ∃ r, PathToConfigFile fs fileName (n + 1) cwd = some r :=
  ⟨_, pathToConfigFile_eq_spec fs fileName n cwd hroot⟩

/-- Witness for C10 on the concrete demo filesystem, starting already at the
root. -/
theorem pathToConfigFile_terminates_witness :
    demoFS.dirname (demoFS.dirname^[0] "/") = demoFS.dirname^[0] "/" ∧
    ∃ r, PathToConfigFile demoFS "conf" 1 "/" = some r :=
  ⟨by decide, pathToConfigFile_terminates demoFS "conf" 0 "/" (by decide)⟩

/-- Expanding each quote into two quotes doubles the number of quote
characters in a character list. -/
theorem count_quote_flatMap (l : List Char) :
    (l.flatMap fun c => if c = '\'' then ['\'', '\''] else [c]).count '\'' =
      2 * l.count '\'' := by
  induction l with
  | nil => rfl
  | cons c l ih =>
    by_cases hc : c = '\''
    · simp [hc, List.count_cons, ih]
      omega
    · simp [hc, List.count_cons, ih]

/-- C7: `UserMessage` first issues `redraw`; the remaining commands are
exactly one per newline-separated line of the message — `echom` when
persisting, `echo` otherwise — carrying the escaped line between single
quotes; and `Escape` doubles every single-quote character of a line (so a
line containing `it's` becomes `it''s`). -/
theorem userMessage_commands (msg : String) (persist : Bool) :
    (UserMessage msg persist).head? = some "redraw" ∧
    (UserMessage msg persist).tail =
      (msg.splitOn "\n").map (fun line =>
        (if persist then "echom" else "echo") ++ " '" ++ Escape line ++ "'") ∧
    (∀ line : String,
      (Escape line).data.count '\'' = 2 * line.data.count '\'') ∧
    Escape "it's" = "it''s" := by
  refine ⟨rfl, rfl, ?_, by decide⟩
  intro line
  exact count_quote_flatMap line.data

end Vimspector
